import Mathlib

/-!
Verification development for the Minecraft-install discovery and resource-loader
layering engine (`mcedit2/util/minecraftinstall.py`).

The Python module is embedded shallowly:

* Filesystem and configuration-file reads (`os.path.exists`, `os.listdir`,
  `zipfile.is_zipfile`, `QSettings.value`, ...) are abstracted as a record of
  pure query functions `FS`; the code under analysis only ever reads through
  these entry points.
* The persisted settings store is a record `Settings`; option reads/writes
  become explicit state passing.  The `allow_snapshots_` option is passed as a
  separate boolean `snap` since the engine only reads it.
* The external `ResourceLoader` (not part of this module) is modelled from the
  spec: an ordered list of layers; `addZipFile` appends an archive layer and
  fails when the archive cannot be opened; `addModsFolder` appends a
  filesystem-backed layer unconditionally.
* Fallible code returns `Except String`; Python exceptions propagate as
  `Except.error`.
* `re.search(r"(\d+)\.(\d+)(.*)", version)` is embedded as an explicit
  leftmost matcher over `List Char`.  Note `.` in a Python regex does not
  match a newline, and `\d` on a byte-string pattern is ASCII `[0-9]`.
  Python 2 `int` over a nonempty ASCII digit string cannot fail, so the
  `except ValueError` branch of `splitVersion` is unreachable.
-/

/-- A character is an ASCII decimal digit (what `\d` matches for a
byte-string pattern). -/
def isAsciiDigit (c : Char) : Bool := '0' ≤ c && c ≤ '9'

/-- Characters stripped by Python `int(...)` before parsing. -/
def isPySpace (c : Char) : Bool :=
  c = ' ' || c = '\t' || c = '\n' || c = '\r' || c = '\x0b' || c = '\x0c'

/-- Decimal value of a digit string, as Python `int` computes it (arbitrary
precision, so no overflow). -/
def digitsVal (l : List Char) : Nat :=
  l.foldl (fun n c => 10 * n + (c.toNat - 48)) 0

/-- Python 2 `int(s)` succeeds on `s` iff, after stripping surrounding
whitespace, an optional single sign is followed by a nonempty run of digits.
(Only ASCII digits are modelled.) -/
def pyIntParses (l : List Char) : Bool :=
  let t := ((l.dropWhile isPySpace).reverse.dropWhile isPySpace).reverse
  let t2 := match t with
    | c :: rest => if c = '+' || c = '-' then rest else t
    | [] => t
  !t2.isEmpty && t2.all isAsciiDigit

/-- Attempt of the regex `(\d+)\.(\d+)(.*)` at the current position: a maximal
nonempty digit run, a literal dot, a maximal nonempty digit run, then `.*`
greedily up to (not including) the first newline.  Returns the three groups. -/
def matchHere (l : List Char) : Option (List Char × List Char × List Char) :=
  if (l.takeWhile isAsciiDigit).isEmpty then none
  else
    match l.dropWhile isAsciiDigit with
    | c :: r2 =>
      if c = '.' then
        if (r2.takeWhile isAsciiDigit).isEmpty then none
        else some (l.takeWhile isAsciiDigit, r2.takeWhile isAsciiDigit,
          (r2.dropWhile isAsciiDigit).takeWhile (fun x => !(x = '\n')))
      else none
    | [] => none

/-- `re.search`: try the pattern at each position, leftmost match wins. -/
def searchVersion : List Char → Option (List Char × List Char × List Char)
  | [] => none
  | c :: cs =>
    match matchHere (c :: cs) with
    | some r => some r
    | none => searchVersion cs

/-- `splitVersion(version)`: split a version ID into major, minor and revision;
`(0, 0, "")` if the version could not be parsed. -/
def splitVersion (version : String) : Nat × Nat × String :=
  match searchVersion version.data with
  | none => (0, 0, "")
  | some (d1, d2, r) => (digitsVal d1, digitsVal d2, ⟨r⟩)

/-- The `(major, minor)` pair of a version string. -/
def versionPair (v : String) : Nat × Nat :=
  ((splitVersion v).1, (splitVersion v).2.1)

/-- Python tuple comparison `a >= b` on pairs (lexicographic). -/
def pairGe (a b : Nat × Nat) : Bool :=
  decide (b.1 < a.1) || (decide (a.1 = b.1) && decide (b.2 ≤ a.2))

/-- Python tuple comparison `a < b` on pairs (lexicographic). -/
def pairLt (a b : Nat × Nat) : Bool :=
  decide (a.1 < b.1) || (decide (a.1 = b.1) && decide (a.2 < b.2))

/-- `usableVersion(version)`: False if `major < 1` or `minor < 6`, else True. -/
def usableVersion (version : String) : Bool :=
  let major := (splitVersion version).1
  let minor := (splitVersion version).2.1
  if major < 1 then false
  else if minor < 6 then false
  else true

/-- The inner `matchVersion` of `findVersion1_9`: `(major, minor) >= (1, 9)`
and the revision is empty or `int(rev[1:])` parses.  (Note: the code drops the
first character of `rev` without checking that it is a period.) -/
def matchVersion (version : String) : Bool :=
  let rev := (splitVersion version).2.2
  if pairGe (versionPair version) (1, 9) then
    if rev = "" then true else pyIntParses (rev.data.drop 1)
  else false

/-- The `isFullRelease` predicate as the specification words it: the pair is
`>= (1, 9)` and the rest is empty or is a period followed by a string that
parses as an integer.  Stated from the spec for comparison with
`matchVersion`, which is the code's actual test. -/
def isFullReleaseSpec (version : String) : Bool :=
  let rev := (splitVersion version).2.2
  pairGe (versionPair version) (1, 9) &&
    (rev = "" || (rev.data.head? = some '.' && pyIntParses (rev.data.drop 1)))

-- Quick sanity examples (kept as propositions, they are also exercised by
-- the claim witnesses below).
example : splitVersion "1.8.1-pre3" = (1, 8, ".1-pre3") := by decide
example : splitVersion "1.9" = (1, 9, "") := by decide
example : splitVersion "garbage" = (0, 0, "") := by decide
example : usableVersion "1.5" = false := by decide
example : usableVersion "1.10" = true := by decide
example : matchVersion "1.9.2" = true := by decide
example : matchVersion "1.9-pre1" = false := by decide
example : matchVersion "1.9x2" = true := by decide
example : isFullReleaseSpec "1.9x2" = false := by decide

/-- Abstract read-only view of the filesystem and of key/value configuration
files, covering exactly the queries the module performs.  `cfgValue f k d` is
`QSettings(f).value(k, d)`: the value of key `k` in file `f`, or default `d`
when absent. -/
structure FS where
  pathExists : String → Bool
  isDir : String → Bool
  listdir : String → List String
  isZipfile : String → Bool
  canOpenZip : String → Bool
  normpath : String → String
  dirname : String → String
  basename : String → String
  isAbs : String → Bool
  cfgValue : String → String → String → String

/-- `os.path.join` for the relative path components used by this module
(POSIX form). -/
def joinPath (a b : String) : String := a ++ "/" ++ b

/-- List prefix test: `leadsWith pre l` holds when `pre` is a prefix of `l`. -/
def leadsWith : List Char → List Char → Bool
  | [], _ => true
  | _ :: _, [] => false
  | a :: as, b :: bs => a = b && leadsWith as bs

/-- Python `s.startswith(p)`. -/
def strStartsWith (s p : String) : Bool := leadsWith p.data s.data

/-- Persisted settings entry for a conventional install
(`getJsonSettingValue`). -/
structure JsonInstall where
  name : String
  path : String
deriving DecidableEq

/-- Persisted settings entry for a MultiMC install. -/
structure JsonMMC where
  configFile : String
deriving DecidableEq

/-- The persisted settings options this module reads and writes.  The
`allow_snapshots_` option is passed separately (the module only reads it). -/
structure Settings where
  installations : List JsonInstall
  multiMCInstalls : List JsonMMC
  currentInstallPath : String
  currentVersion : String
  currentResourcePack : String
deriving DecidableEq

/-- A conventional Minecraft install (`MCInstall`): a name and a root path.
The back-reference to the owning group is passed explicitly where needed. -/
structure MCInstall where
  name : String
  path : String
deriving DecidableEq

/-- `self.versionsDir = os.path.join(self.path, "versions")`. -/
def MCInstall.versionsDir (i : MCInstall) : String := joinPath i.path "versions"

/-- `os.path.join(self.versionsDir, version, "%s.jar" % version)`. -/
def MCInstall.getVersionJarPath (i : MCInstall) (version : String) : String :=
  joinPath (joinPath i.versionsDir version) (version ++ ".jar")

/-- The `versions` property: directory entries of `versions/` whose jar file
exists and which are usable (or any, when snapshots are allowed). -/
def MCInstall.versions (fs : FS) (snap : Bool) (i : MCInstall) : List String :=
  (fs.listdir i.versionsDir).filter
    (fun v => fs.pathExists (i.getVersionJarPath v) && (usableVersion v || snap))

/-- `os.path.join(self.path, "resourcepacks", filename)`. -/
def MCInstall.getResourcePackPath (i : MCInstall) (filename : String) : String :=
  joinPath (joinPath i.path "resourcepacks") filename

/-- `getJsonSettingValue`: the persisted `{name, path}` pair. -/
def MCInstall.getJsonSettingValue (i : MCInstall) : JsonInstall :=
  ⟨i.name, i.path⟩

/-- `checkUsable`: raises (here: returns an error) when the root is missing,
the versions folder is missing, or there are no usable versions. -/
def MCInstall.checkUsable (fs : FS) (snap : Bool) (i : MCInstall) : Except String Unit :=
  if !fs.pathExists i.path then .error "Minecraft folder does not exist."
  else if !fs.pathExists i.versionsDir then .error "Minecraft versions folder does not exist."
  else if (i.versions fs snap).isEmpty then .error "Minecraft folder has no minecraft versions"
  else .ok ()

/-- A MultiMC install (`MultiMCInstall`) after successful construction. -/
structure MultiMCInstall where
  configPath : String
  mmcDir : String
  instanceDir : String
  versionsDir : String
  name : String
deriving DecidableEq

/-- Constructor of `MultiMCInstall`: fails when the config file is absent or
`InstanceDir` is empty; a relative `InstanceDir` is resolved against the
config file's directory. -/
def MultiMCInstall.mk' (fs : FS) (configPath : String) : Except String MultiMCInstall :=
  if !fs.pathExists configPath then .error "Config file does not exist"
  else
    let instanceDir := fs.cfgValue configPath "InstanceDir" ""
    if instanceDir = "" then .error "InstanceDir not set"
    else
      let mmcDir := fs.dirname configPath
      let instanceDir := if !fs.isAbs instanceDir then joinPath mmcDir instanceDir else instanceDir
      .ok ⟨configPath, mmcDir, instanceDir, joinPath mmcDir "versions", fs.basename mmcDir⟩

/-- `os.path.join(self.versionsDir, version, version + ".jar")`. -/
def MultiMCInstall.getVersionJarPath (m : MultiMCInstall) (version : String) : String :=
  joinPath (joinPath m.versionsDir version) (version ++ ".jar")

/-- The MultiMC `versions` property: directory entries of the shared versions
folder whose jar file exists. -/
def MultiMCInstall.versions (fs : FS) (m : MultiMCInstall) : List String :=
  (fs.listdir m.versionsDir).filter
    (fun v => fs.pathExists (joinPath (joinPath m.versionsDir v) (v ++ ".jar")))

/-- `getJsonSettingValue` for a MultiMC install. -/
def MultiMCInstall.getJsonSettingValue (m : MultiMCInstall) : JsonMMC :=
  ⟨m.configPath⟩

/-- A MultiMC instance (`MMCInstance`) after successful construction: one
fixed version, a saves folder and a mods folder. -/
structure MMCInstance where
  version : String
  name : String
  saveFileDir : String
  modsDir : String
  install : MultiMCInstall
deriving DecidableEq

/-- Constructor of `MMCInstance`: fails when `instance.cfg` is absent or has
no `IntendedVersion`. -/
def MMCInstance.mk' (fs : FS) (install : MultiMCInstall) (path : String) :
    Except String MMCInstance :=
  let instanceCfg := joinPath path "instance.cfg"
  if !fs.pathExists instanceCfg then .error "instance.cfg not found"
  else
    let version := fs.cfgValue instanceCfg "IntendedVersion" ""
    if version = "" then .error "Instance has no IntendedVersion"
    else
      .ok ⟨version, fs.cfgValue instanceCfg "name" "(unnamed)",
        joinPath (joinPath path "minecraft") "saves",
        joinPath (joinPath path "minecraft") "mods", install⟩

/-- `MMCInstance.getVersionJarPath`: delegate to the owning install with the
instance's fixed version. -/
def MMCInstance.getVersionJarPath (inst : MMCInstance) : String :=
  inst.install.getVersionJarPath inst.version

/-- The `instances` property of a MultiMC install: scan the instance
directory; skip non-directories; skip entries whose construction fails. -/
def MultiMCInstall.instances (fs : FS) (m : MultiMCInstall) : List MMCInstance :=
  (fs.listdir m.instanceDir).filterMap (fun filename =>
    let path := joinPath m.instanceDir filename
    if fs.isDir path then (MMCInstance.mk' fs m path).toOption else none)

/-- The in-memory state of `MCInstallGroup`: the two ordered lists. -/
structure MCInstallGroup where
  installations : List MCInstall
  mmcInstalls : List MultiMCInstall
deriving DecidableEq

/-- One layer of a resource loader's search path: an archive, or a
filesystem-backed mods folder. -/
inductive Layer where
  | zip (path : String)
  | mods (path : String)
deriving DecidableEq

/-- Modelled from the spec: the external `ResourceLoader` (the
archive-reading component, not part of this module) holds the constructor's
blockstates-version argument and an ordered list of layers, earlier layers
searched first. -/
structure ResourceLoader where
  blockstatesVersion : Option String
  layers : List Layer
deriving DecidableEq

/-- Modelled from the spec: `ResourceLoader.addZipFile` opens the archive and
appends it as the last layer; opening can fail, in which case the loader is
unchanged and the error propagates to the caller. -/
def addZipFile (fs : FS) (loader : ResourceLoader) (path : String) :
    Except String ResourceLoader :=
  if fs.canOpenZip path then .ok { loader with layers := loader.layers ++ [Layer.zip path] }
  else .error path

/-- Modelled from the spec: `ResourceLoader.addModsFolder` appends a
filesystem-backed layer unconditionally (existence is checked by the
consumer). -/
def addModsFolder (loader : ResourceLoader) (path : String) : ResourceLoader :=
  { loader with layers := loader.layers ++ [Layer.mods path] }

/-- The inner loop of `findVersion1_9` over one version list: the first
version passing `matchVersion` whose jar is a structurally valid zip yields
that jar's path. -/
def findJarInVersions (fs : FS) (jarPath : String → String) : List String → Option String
  | [] => none
  | v :: rest =>
    if matchVersion v && fs.isZipfile (jarPath v) then some (jarPath v)
    else findJarInVersions fs jarPath rest

/-- The scan of `findVersion1_9` over the conventional installations. -/
def findJarInInstalls (fs : FS) (snap : Bool) : List MCInstall → Option String
  | [] => none
  | i :: rest =>
    match findJarInVersions fs i.getVersionJarPath (i.versions fs snap) with
    | some p => some p
    | none => findJarInInstalls fs snap rest

/-- The scan of `findVersion1_9` over the MultiMC installs. -/
def findJarInMMCInstalls (fs : FS) : List MultiMCInstall → Option String
  | [] => none
  | m :: rest =>
    match findJarInVersions fs m.getVersionJarPath (m.versions fs) with
    | some p => some p
    | none => findJarInMMCInstalls fs rest

/-- `MCInstallGroup.findVersion1_9`: scan conventional installations first,
then MultiMC installs; absence is `none`, not an error. -/
def MCInstallGroup.findVersion1_9 (fs : FS) (snap : Bool) (g : MCInstallGroup) :
    Option String :=
  match findJarInInstalls fs snap g.installations with
  | some p => some p
  | none => findJarInMMCInstalls fs g.mmcInstalls

/-- `MCInstall.getResourceLoader(version, resourcePack)`.  The group `g` is
the install's back-reference `self.installGroup`.  The resource-pack layer is
guarded by `try/except` (failure logged and skipped); the remaining
`addZipFile` calls are unguarded, so their failures propagate.  Passing the
absent reference version to `addZipFile` (Python `None`) is a failure. -/
def MCInstall.getResourceLoader (fs : FS) (snap : Bool) (g : MCInstallGroup)
    (self : MCInstall) (version : String) (resourcePack : Option String) :
    Except String ResourceLoader :=
  let v1_9 := g.findVersion1_9 fs snap
  let loader0 : ResourceLoader := ⟨v1_9, []⟩
  let loader1 := match resourcePack with
    | none => loader0
    | some p =>
      if p = "" then loader0
      else match addZipFile fs loader0 (self.getResourcePackPath p) with
        | .ok l => l
        | .error _ => loader0
  let path0 := self.getVersionJarPath version
  let path1 :=
    if fs.pathExists path0 then path0
    else match self.versions fs snap with
      | [] => path0
      | v0 :: _ => self.getVersionJarPath v0
  match addZipFile fs loader1 path1 with
  | .error e => .error e
  | .ok loader2 =>
    if versionPair version = (1, 9) then .ok loader2
    else match v1_9 with
      | none => .error "addZipFile: None"
      | some refPath => addZipFile fs loader2 refPath

/-- `MMCInstance.getResourceLoader(resourcePack=None)`.  The group `g` is
`self.install.installGroup`.  Unlike the conventional install's version,
the resource-pack `addZipFile` here is NOT wrapped in `try/except`, so a
pack-open failure propagates; the mods folder is appended last,
unconditionally. -/
def MMCInstance.getResourceLoader (fs : FS) (snap : Bool) (g : MCInstallGroup)
    (inst : MMCInstance) (resourcePack : Option String) :
    Except String ResourceLoader :=
  let v1_9 := g.findVersion1_9 fs snap
  let loader0 : ResourceLoader := ⟨v1_9, []⟩
  let step1 : Except String ResourceLoader := match resourcePack with
    | none => .ok loader0
    | some p => if p = "" then .ok loader0 else addZipFile fs loader0 p
  match step1 with
  | .error e => .error e
  | .ok loader1 =>
    match addZipFile fs loader1 inst.getVersionJarPath with
    | .error e => .error e
    | .ok loader2 =>
      match
        (if versionPair inst.version = (1, 9) then Except.ok loader2
         else match v1_9 with
           | none => Except.error "addZipFile: None"
           | some refPath => addZipFile fs loader2 refPath) with
      | .error e => .error e
      | .ok loader3 => .ok (addModsFolder loader3 inst.modsDir)

/-- `MCInstallGroup.getInstall(path)`: first installation with that path. -/
def MCInstallGroup.getInstall (g : MCInstallGroup) (path : String) : Option MCInstall :=
  g.installations.find? (fun i => i.path == path)

/-- `_saveInstalls`: persist both ordered lists into the settings store. -/
def saveInstallsS (g : MCInstallGroup) (s : Settings) : Settings :=
  { s with installations := g.installations.map MCInstall.getJsonSettingValue,
           multiMCInstalls := g.mmcInstalls.map MultiMCInstall.getJsonSettingValue }

/-- `MCInstallGroup.addInstall`: append and persist. -/
def MCInstallGroup.addInstall (g : MCInstallGroup) (s : Settings) (install : MCInstall) :
    MCInstallGroup × Settings :=
  let g2 := { g with installations := g.installations ++ [install] }
  (g2, saveInstallsS g2 s)

/-- `MCInstallGroup.removeInstall(path)`: keep the installations whose path
differs, and persist. -/
def MCInstallGroup.removeInstall (g : MCInstallGroup) (s : Settings) (path : String) :
    MCInstallGroup × Settings :=
  let g2 := { g with installations := g.installations.filter (fun i => !(i.path == path)) }
  (g2, saveInstallsS g2 s)

/-- `_loadInstalls`: construct an `MCInstall` per persisted entry; keep it
only when `checkUsable` passes. -/
def loadInstalls (fs : FS) (snap : Bool) (jsons : List JsonInstall) : List MCInstall :=
  jsons.filterMap (fun j =>
    let i : MCInstall := ⟨j.name, j.path⟩
    match i.checkUsable fs snap with
    | .ok _ => some i
    | .error _ => none)

/-- `_loadMMCInstalls`: construct a `MultiMCInstall` per persisted entry;
drop the entries whose construction fails. -/
def loadMMCInstalls (fs : FS) (jsons : List JsonMMC) : List MultiMCInstall :=
  jsons.filterMap (fun j => (MultiMCInstall.mk' fs j.configFile).toOption)

/-- The current-install fixup in `MCInstallGroup.__init__`: when the persisted
current path matches no loaded installation, point it at the first
installation, or clear it when there is none. -/
def fixupCurrent (g : MCInstallGroup) (s : Settings) : Settings :=
  match g.getInstall s.currentInstallPath with
  | some _ => s
  | none =>
    match g.installations with
    | [] => { s with currentInstallPath := "" }
    | i :: _ => { s with currentInstallPath := i.path }

/-- `getDefaultInstall`: probe the platform-default directory; when usable,
append it — only if its `{name, path}` pair is not already in the persisted
list — and persist; then point the current install at it when unset. -/
def getDefaultInstallStep (fs : FS) (snap : Bool) (minecraftDir : String)
    (g : MCInstallGroup) (s : Settings) : MCInstallGroup × Settings :=
  let dflt : MCInstall := ⟨"(Default)", minecraftDir⟩
  match dflt.checkUsable fs snap with
  | .error _ => (g, s)
  | .ok _ =>
    let value := dflt.getJsonSettingValue
    let (g1, s1) :=
      if value ∈ s.installations then (g, s)
      else
        let g2 := { g with installations := g.installations ++ [dflt] }
        (g2, saveInstallsS g2 s)
    let s2 := if s1.currentInstallPath = "" then { s1 with currentInstallPath := dflt.path } else s1
    (g1, s2)

/-- `MCInstallGroup.__init__`: load both lists from the persisted settings,
fix up the current-install pointer, then auto-discover the platform-default
installation.  `minecraftDir` is `directories.minecraftDir` (external). -/
def mkGroup (fs : FS) (snap : Bool) (minecraftDir : String) (s : Settings) :
    MCInstallGroup × Settings :=
  let g : MCInstallGroup :=
    ⟨loadInstalls fs snap s.installations, loadMMCInstalls fs s.multiMCInstalls⟩
  let s1 := fixupCurrent g s
  getDefaultInstallStep fs snap minecraftDir g s1

/-- The `instances` property of the group: all instances of all MultiMC
installs, in order. -/
def MCInstallGroup.instances (fs : FS) (g : MCInstallGroup) : List MMCInstance :=
  (g.mmcInstalls.map (MultiMCInstall.instances fs)).flatten

/-- `selectedInstallPath`: the persisted current path when it matches an
installation, else the first installation's path, else nothing.  (The
settings write performed by the fallback branch is not observed by any
modelled query and is omitted.) -/
def MCInstallGroup.selectedInstallPath (g : MCInstallGroup) (s : Settings) : Option String :=
  if g.installations.any (fun i => i.path == s.currentInstallPath) then
    some s.currentInstallPath
  else match g.installations with
    | [] => none
    | i :: _ => some i.path

/-- `getCurrentInstall`: look the selected path up in the installations. -/
def MCInstallGroup.getCurrentInstall (g : MCInstallGroup) (s : Settings) : Option MCInstall :=
  match g.selectedInstallPath s with
  | none => none
  | some p => g.getInstall p

/-- `getDefaultResourceLoader`: a loader over just the reference version's
jar.  When no reference version exists, Python passes `None` to
`ResourceLoader`/`addZipFile`, which fails. -/
def MCInstallGroup.getDefaultResourceLoader (fs : FS) (snap : Bool) (g : MCInstallGroup) :
    Except String ResourceLoader :=
  match g.findVersion1_9 fs snap with
  | none => .error "addZipFile: None"
  | some v18 => addZipFile fs ⟨some v18, []⟩ v18

/-- `getSelectedResourceLoader`: loader of the current install with the
persisted version (or the install's first version — an index error when
there is none) and persisted resource pack. -/
def getSelectedResourceLoader (fs : FS) (snap : Bool) (g : MCInstallGroup)
    (s : Settings) : Except String ResourceLoader :=
  match g.getCurrentInstall s with
  | none => g.getDefaultResourceLoader fs snap
  | some install =>
    let p := if s.currentResourcePack = "" then none else some s.currentResourcePack
    if s.currentVersion = "" then
      match install.versions fs snap with
      | [] => .error "IndexError"
      | v0 :: _ => install.getResourceLoader fs snap g v0 p
    else install.getResourceLoader fs snap g s.currentVersion p

/-- `getResourceLoaderForFilename`: a world path inside some MultiMC
instance's saves folder gets that (first such) instance's loader; otherwise
the selected loader, with a `mods` folder two levels above the world attached
when present. -/
def getResourceLoaderForFilename (fs : FS) (snap : Bool) (g : MCInstallGroup)
    (s : Settings) (filename : String) : Except String ResourceLoader :=
  let filename := fs.normpath filename
  match (g.instances fs).find?
      (fun inst => strStartsWith filename (fs.normpath inst.saveFileDir)) with
  | some inst => inst.getResourceLoader fs snap g none
  | none =>
    match getSelectedResourceLoader fs snap g s with
    | .error e => .error e
    | .ok loader =>
      let worldFolder := if !fs.isDir filename then fs.dirname filename else filename
      let savesFolder := fs.dirname worldFolder
      let mcFolder := fs.dirname savesFolder
      let modsFolder := joinPath mcFolder "mods"
      .ok (if fs.isDir modsFolder then addModsFolder loader modsFolder else loader)

deriving instance DecidableEq for Except

/-- C5 counterexample input: `"2.3"` has `(major, minor) = (2, 3)`, which is
lexicographically at least `(1, 6)`, yet `usableVersion` rejects it because
`minor < 6`. -/
theorem c5_counterexample :
    pairGe (versionPair "2.3") (1, 6) = true ∧ usableVersion "2.3" = false := by
  decide

/-- C5 (amended): `usableVersion` returns false exactly when `major < 1` or
`minor < 6`; in particular it returns false on every pair lexicographically
below `(1, 6)`, but it is not true on all pairs lexicographically at least
`(1, 6)`. -/
theorem c5_usable_version_gate (v : String) :
    (pairLt (versionPair v) (1, 6) = true → usableVersion v = false) ∧
    (usableVersion v = true ↔ 1 ≤ (splitVersion v).1 ∧ 6 ≤ (splitVersion v).2.1) := by
  have hm : usableVersion v = true ↔ 1 ≤ (splitVersion v).1 ∧ 6 ≤ (splitVersion v).2.1 := by
    unfold usableVersion
    simp only []
    split_ifs with h1 h2
    · simp; omega
    · simp; omega
    · simp; omega
  refine ⟨fun h => ?_, hm⟩
  unfold pairLt versionPair at h
  simp only [Bool.or_eq_true, Bool.and_eq_true, decide_eq_true_eq] at h
  cases hu : usableVersion v
  · rfl
  · exact absurd (hm.mp hu) (by omega)

/-- C5 witness: the theorem applied at `"1.5"` (below the gate) and
`"1.10"` (above it). -/
theorem c5_witness :
    usableVersion "1.5" = false ∧ usableVersion "1.10" = true :=
  ⟨(c5_usable_version_gate "1.5").1 (by decide),
   (c5_usable_version_gate "1.10").2.mpr (by decide)⟩

/-- C8 counterexample input: two persisted installations sharing one path. -/
def c8group : MCInstallGroup := ⟨[⟨"a", "/p"⟩, ⟨"b", "/p"⟩], []⟩

/-- Settings accompanying the C8 counterexample. -/
def c8settings : Settings := ⟨[⟨"a", "/p"⟩, ⟨"b", "/p"⟩], [], "/p", "", ""⟩

/-- C8 counterexample: with two entries of path `/p`, `removeInstall "/p"`
removes both — not exactly one. -/
theorem c8_counterexample :
    (c8group.removeInstall c8settings "/p").1.installations = [] ∧
    c8group.installations.length = 2 := by decide

/-- C8 (amended): `removeInstall(path)` keeps exactly the installations whose
path differs (so it removes every matching entry, which is exactly one when
exactly one entry matches) and immediately persists the filtered list. -/
theorem c8_remove_install (g : MCInstallGroup) (s : Settings) (path : String) :
    ((g.removeInstall s path).1.installations
        = g.installations.filter (fun i => !(i.path == path))) ∧
    ((g.removeInstall s path).2.installations
        = (g.installations.filter (fun i => !(i.path == path))).map
            MCInstall.getJsonSettingValue) ∧
    (∀ j ∈ (g.removeInstall s path).1.installations, j.path ≠ path) ∧
    (g.installations.countP (fun i => i.path == path) = 1 →
      (g.removeInstall s path).1.installations.length + 1 = g.installations.length) := by
  refine ⟨rfl, rfl, ?_, ?_⟩
  · intro j hj
    have := List.of_mem_filter hj
    simpa using this
  · intro h1
    have hlen : (g.installations.filter (fun i => !(i.path == path))).length
        = g.installations.countP (fun i => !(i.path == path)) :=
      (List.countP_eq_length_filter _ _).symm
    have hsplit : g.installations.countP (fun i => i.path == path)
        + g.installations.countP (fun i => !(i.path == path))
        = g.installations.length := by
      induction g.installations with
      | nil => rfl
      | cons a l ih =>
        by_cases ha : a.path == path <;>
          simp [List.countP_cons, ha, ← ih] <;> omega
    show (g.installations.filter (fun i => !(i.path == path))).length + 1
        = g.installations.length
    omega

/-- C8 witness: removing a uniquely matching path drops exactly one entry. -/
theorem c8_witness :
    ((MCInstallGroup.removeInstall ⟨[⟨"a", "/p"⟩, ⟨"b", "/q"⟩], []⟩ c8settings "/q").1.installations
        = [⟨"a", "/p"⟩]) ∧
    ((MCInstallGroup.removeInstall ⟨[⟨"a", "/p"⟩, ⟨"b", "/q"⟩], []⟩ c8settings "/q").1.installations.length + 1
        = 2) :=
  ⟨by decide,
   (c8_remove_install ⟨[⟨"a", "/p"⟩, ⟨"b", "/q"⟩], []⟩ c8settings "/q").2.2.2 (by decide)⟩

/-- C10: `addInstall` appends at the end with no duplicate check, leaves the
prior entries, their order, the MultiMC list and the current-install pointer
(and the other current options) unchanged, and persists the two lists. -/
theorem c10_add_install (g : MCInstallGroup) (s : Settings) (i : MCInstall) :
    ((g.addInstall s i).1.installations = g.installations ++ [i]) ∧
    ((g.addInstall s i).1.mmcInstalls = g.mmcInstalls) ∧
    ((g.addInstall s i).2.installations
        = (g.installations ++ [i]).map MCInstall.getJsonSettingValue) ∧
    ((g.addInstall s i).2.multiMCInstalls
        = g.mmcInstalls.map MultiMCInstall.getJsonSettingValue) ∧
    ((g.addInstall s i).2.currentInstallPath = s.currentInstallPath) ∧
    ((g.addInstall s i).2.currentVersion = s.currentVersion) ∧
    ((g.addInstall s i).2.currentResourcePack = s.currentResourcePack) ∧
    (∀ j ∈ g.installations, j.path = i.path →
      j ∈ (g.addInstall s i).1.installations ∧ i ∈ (g.addInstall s i).1.installations) := by
  refine ⟨rfl, rfl, rfl, rfl, rfl, rfl, rfl, ?_⟩
  intro j hj _
  constructor
  · exact List.mem_append_left _ hj
  · exact List.mem_append_right _ (by simp)

/-- C10 witness: adding an installation whose path duplicates an existing one
keeps both entries. -/
theorem c10_witness :
    (⟨"a", "/p"⟩ : MCInstall) ∈
        (MCInstallGroup.addInstall ⟨[⟨"a", "/p"⟩], []⟩ ⟨[], [], "/p", "", ""⟩ ⟨"b", "/p"⟩).1.installations ∧
    (⟨"b", "/p"⟩ : MCInstall) ∈
        (MCInstallGroup.addInstall ⟨[⟨"a", "/p"⟩], []⟩ ⟨[], [], "/p", "", ""⟩ ⟨"b", "/p"⟩).1.installations :=
  (c10_add_install ⟨[⟨"a", "/p"⟩], []⟩ ⟨[], [], "/p", "", ""⟩ ⟨"b", "/p"⟩).2.2.2.2.2.2.2
    ⟨"a", "/p"⟩ (by decide) rfl


/-- The qualification test of `findVersion1_9` for one version of an
installation with jar-path function `jarPath`. -/
def qualifies (fs : FS) (jarPath : String → String) (v : String) : Bool :=
  matchVersion v && fs.isZipfile (jarPath v)

/-- Reference form of the conventional-installation scan: first installation
(stored order) whose version list (listing order) has a qualifying version,
that version's jar path. -/
def specScanInstalls (fs : FS) (snap : Bool) (l : List MCInstall) : Option String :=
  l.findSome? (fun i =>
    ((i.versions fs snap).find? (qualifies fs i.getVersionJarPath)).map i.getVersionJarPath)

/-- Reference form of the MultiMC scan. -/
def specScanMMC (fs : FS) (l : List MultiMCInstall) : Option String :=
  l.findSome? (fun m =>
    ((m.versions fs).find? (qualifies fs m.getVersionJarPath)).map m.getVersionJarPath)

/-- The inner scan returns the jar path of the first qualifying version. -/
theorem findJarInVersions_eq (fs : FS) (jarPath : String → String) (vs : List String) :
    findJarInVersions fs jarPath vs
      = (vs.find? (qualifies fs jarPath)).map jarPath := by
  induction vs with
  | nil => rfl
  | cons v rest ih =>
    rw [findJarInVersions]
    by_cases h : (matchVersion v && fs.isZipfile (jarPath v)) = true
    · simp [h, List.find?_cons, qualifies]
    · simp only [Bool.not_eq_true] at h
      simp [h, List.find?_cons, ih, qualifies]

/-- A jar path produced by the inner scan passed the archive-format check. -/
theorem findJarInVersions_isZip {fs : FS} {jarPath : String → String}
    {vs : List String} {p : String}
    (h : findJarInVersions fs jarPath vs = some p) : fs.isZipfile p = true := by
  induction vs with
  | nil => simp [findJarInVersions] at h
  | cons v rest ih =>
    rw [findJarInVersions] at h
    by_cases hc : (matchVersion v && fs.isZipfile (jarPath v)) = true
    · rw [if_pos hc] at h
      cases h
      exact (Bool.and_eq_true _ _ |>.mp hc).2
    · rw [if_neg hc] at h
      exact ih h

/-- The conventional-installation scan equals its reference form. -/
theorem findJarInInstalls_eq (fs : FS) (snap : Bool) (l : List MCInstall) :
    findJarInInstalls fs snap l = specScanInstalls fs snap l := by
  induction l with
  | nil => rfl
  | cons i rest ih =>
    rw [findJarInInstalls, specScanInstalls, List.findSome?_cons, ← specScanInstalls,
      findJarInVersions_eq fs i.getVersionJarPath]
    cases ((i.versions fs snap).find? (qualifies fs i.getVersionJarPath)).map i.getVersionJarPath with
    | some q => rfl
    | none => exact ih

/-- The MultiMC scan equals its reference form. -/
theorem findJarInMMCInstalls_eq (fs : FS) (l : List MultiMCInstall) :
    findJarInMMCInstalls fs l = specScanMMC fs l := by
  induction l with
  | nil => rfl
  | cons m rest ih =>
    rw [findJarInMMCInstalls, specScanMMC, List.findSome?_cons, ← specScanMMC,
      findJarInVersions_eq fs m.getVersionJarPath]
    cases ((m.versions fs).find? (qualifies fs m.getVersionJarPath)).map m.getVersionJarPath with
    | some q => rfl
    | none => exact ih

/-- A jar path produced by the conventional scan passed the archive check. -/
theorem findJarInInstalls_isZip {fs : FS} {snap : Bool} {l : List MCInstall} {p : String}
    (h : findJarInInstalls fs snap l = some p) : fs.isZipfile p = true := by
  induction l with
  | nil => simp [findJarInInstalls] at h
  | cons i rest ih =>
    rw [findJarInInstalls] at h
    cases hv : findJarInVersions fs i.getVersionJarPath (i.versions fs snap) with
    | some q => rw [hv] at h; cases h; exact findJarInVersions_isZip hv
    | none => rw [hv] at h; exact ih h

/-- A jar path produced by the MultiMC scan passed the archive check. -/
theorem findJarInMMCInstalls_isZip {fs : FS} {l : List MultiMCInstall} {p : String}
    (h : findJarInMMCInstalls fs l = some p) : fs.isZipfile p = true := by
  induction l with
  | nil => simp [findJarInMMCInstalls] at h
  | cons m rest ih =>
    rw [findJarInMMCInstalls] at h
    cases hv : findJarInVersions fs m.getVersionJarPath (m.versions fs) with
    | some q => rw [hv] at h; cases h; exact findJarInVersions_isZip hv
    | none => rw [hv] at h; exact ih h

/-- C2 (amended): `findVersion1_9` scans conventional installations in their
stored order, each version list in listing order, then MultiMC installs
likewise, and returns the jar path of the first version accepted by the
code's test — `(major, minor) >= (1, 9)` and revision empty or parsing as an
integer after dropping the revision's first character, whatever that
character is — whose jar is a structurally valid archive; it returns `none`
exactly when no version anywhere qualifies, and a returned path always
passed the archive-format check. -/
theorem c2_find_version_1_9 (fs : FS) (snap : Bool) (g : MCInstallGroup) :
    (g.findVersion1_9 fs snap
      = (specScanInstalls fs snap g.installations).or (specScanMMC fs g.mmcInstalls)) ∧
    (∀ p, g.findVersion1_9 fs snap = some p → fs.isZipfile p = true) ∧
    (g.findVersion1_9 fs snap = none ↔
      ((∀ i ∈ g.installations, ∀ v ∈ i.versions fs snap,
          qualifies fs i.getVersionJarPath v = false) ∧
        (∀ m ∈ g.mmcInstalls, ∀ v ∈ m.versions fs,
          qualifies fs m.getVersionJarPath v = false))) := by
  refine ⟨?_, ?_, ?_⟩
  · rw [MCInstallGroup.findVersion1_9, findJarInInstalls_eq, findJarInMMCInstalls_eq]
    cases specScanInstalls fs snap g.installations <;> simp [Option.or]
  · intro p h
    rw [MCInstallGroup.findVersion1_9] at h
    cases hi : findJarInInstalls fs snap g.installations with
    | some q => rw [hi] at h; cases h; exact findJarInInstalls_isZip hi
    | none => rw [hi] at h; exact findJarInMMCInstalls_isZip h
  · rw [MCInstallGroup.findVersion1_9]
    cases hi : findJarInInstalls fs snap g.installations with
    | some q =>
      simp only [reduceCtorEq, false_iff, not_and]
      intro hforall
      rw [findJarInInstalls_eq, specScanInstalls] at hi
      obtain ⟨i, hmem, hsome⟩ := List.exists_of_findSome?_eq_some hi
      obtain ⟨v, hv⟩ := Option.map_eq_some'.mp hsome
      have hq := List.find?_some hv.1
      have hvm := List.mem_of_find?_eq_some hv.1
      exact absurd (hforall i hmem v hvm) (by simp [hq])
    | none =>
      show findJarInMMCInstalls fs g.mmcInstalls = none ↔ _
      rw [findJarInInstalls_eq, specScanInstalls] at hi
      constructor
      · intro h
        rw [findJarInMMCInstalls_eq, specScanMMC] at h
        constructor
        · intro i hmem v hv
          have h1 := List.findSome?_eq_none_iff.mp hi i hmem
          have hnone := Option.map_eq_none'.mp h1
          have := List.find?_eq_none.mp hnone v hv
          simpa using this
        · intro m hmem v hv
          have h1 := List.findSome?_eq_none_iff.mp h m hmem
          have hnone := Option.map_eq_none'.mp h1
          have := List.find?_eq_none.mp hnone v hv
          simpa using this
      · intro hb
        rw [findJarInMMCInstalls_eq, specScanMMC]
        apply List.findSome?_eq_none_iff.mpr
        intro m hmem
        apply Option.map_eq_none'.mpr
        apply List.find?_eq_none.mpr
        intro v hv
        simp [hb.2 m hmem v hv]

/-- C2 counterexample filesystem: one installation at `/mc` whose only
version directory is `1.9x2`; every file exists and every jar is a valid
archive. -/
def c2fs : FS :=
  { pathExists := fun _ => true, isDir := fun _ => true,
    listdir := fun p => if p = "/mc/versions" then ["1.9x2"] else [],
    isZipfile := fun _ => true, canOpenZip := fun _ => true,
    normpath := id, dirname := fun _ => "", basename := fun _ => "",
    isAbs := fun _ => true, cfgValue := fun _ _ d => d }

/-- C2 counterexample group: the single installation at `/mc`. -/
def c2group : MCInstallGroup := ⟨[⟨"Main", "/mc"⟩], []⟩

/-- C2 counterexample: `"1.9x2"` has rest `"x2"`, which is not `"."` followed
by an integer, so by the claim no version qualifies anywhere and the result
should be absent; the code accepts it (it only drops the rest's first
character before integer-parsing) and returns its jar path. -/
theorem c2_counterexample :
    isFullReleaseSpec "1.9x2" = false ∧
    (∀ v ∈ MCInstall.versions c2fs false ⟨"Main", "/mc"⟩, isFullReleaseSpec v = false) ∧
    c2group.findVersion1_9 c2fs false = some "/mc/versions/1.9x2/1.9x2.jar" := by
  refine ⟨by decide, by decide, by decide⟩

/-- C2 witness: the theorem's archive-check consequence applied at the
concrete `c2fs` scan, whose result is the `1.9x2` jar. -/
theorem c2_witness :
    c2group.findVersion1_9 c2fs false = some "/mc/versions/1.9x2/1.9x2.jar" ∧
    c2fs.isZipfile "/mc/versions/1.9x2/1.9x2.jar" = true :=
  ⟨by decide, (c2_find_version_1_9 c2fs false c2group).2.1 _ (by decide)⟩

/-- The reference-version fallback layers: present iff the target version's
`(major, minor)` differs from `(1, 9)`. -/
def refLayers (version r : String) : List Layer :=
  if versionPair version = (1, 9) then [] else [Layer.zip r]

/-- C1: with a reference version found and every involved archive present
and openable, both loader builders produce the layers in order — resource
pack first when given, then the target version's jar, then the reference
archive exactly when `(major, minor) ≠ (1, 9)`; the MultiMC instance
additionally appends its mods directory last, unconditionally. -/
theorem c1_layer_order (fs : FS) (snap : Bool) (g : MCInstallGroup)
    (self : MCInstall) (inst : MMCInstance) (version p r : String)
    (hr : g.findVersion1_9 fs snap = some r)
    (hjar : fs.pathExists (self.getVersionJarPath version) = true)
    (hjarOpen : fs.canOpenZip (self.getVersionJarPath version) = true)
    (hrefOpen : fs.canOpenZip r = true)
    (hpack : fs.canOpenZip (self.getResourcePackPath p) = true)
    (hp : p ≠ "")
    (hmjarOpen : fs.canOpenZip inst.getVersionJarPath = true)
    (hmpack : fs.canOpenZip p = true) :
    (self.getResourceLoader fs snap g version none
      = .ok ⟨some r, [Layer.zip (self.getVersionJarPath version)] ++ refLayers version r⟩) ∧
    (self.getResourceLoader fs snap g version (some p)
      = .ok ⟨some r, [Layer.zip (self.getResourcePackPath p),
          Layer.zip (self.getVersionJarPath version)] ++ refLayers version r⟩) ∧
    (inst.getResourceLoader fs snap g none
      = .ok ⟨some r, [Layer.zip inst.getVersionJarPath]
          ++ refLayers inst.version r ++ [Layer.mods inst.modsDir]⟩) ∧
    (inst.getResourceLoader fs snap g (some p)
      = .ok ⟨some r, [Layer.zip p, Layer.zip inst.getVersionJarPath]
          ++ refLayers inst.version r ++ [Layer.mods inst.modsDir]⟩) := by
  refine ⟨?_, ?_, ?_, ?_⟩
  · rw [MCInstall.getResourceLoader]
    simp only [hr, addZipFile, hjar, hjarOpen, if_true, reduceIte]
    by_cases hv : versionPair version = (1, 9) <;>
      simp [hv, refLayers, addZipFile, hrefOpen]
  · rw [MCInstall.getResourceLoader]
    simp only [hr, addZipFile, hjar, hjarOpen, hpack, hp, if_true, reduceIte, if_neg]
    by_cases hv : versionPair version = (1, 9) <;>
      simp [hv, hp, refLayers, addZipFile, hrefOpen]
  · rw [MMCInstance.getResourceLoader]
    simp only [hr, addZipFile, hmjarOpen, if_true, reduceIte]
    by_cases hv : versionPair inst.version = (1, 9) <;>
      simp [hv, refLayers, addZipFile, hrefOpen, addModsFolder]
  · rw [MMCInstance.getResourceLoader]
    simp only [hr, addZipFile, hmjarOpen, hmpack, hp, if_true, reduceIte, if_neg]
    by_cases hv : versionPair inst.version = (1, 9) <;>
      simp [hv, hp, refLayers, addZipFile, hrefOpen, addModsFolder]

/-- C1 witness filesystem: one conventional install at `/mc` with versions
`1.9` and `1.10`, everything present and openable. -/
def wfs : FS :=
  { pathExists := fun _ => true, isDir := fun _ => true,
    listdir := fun q => if q = "/mc/versions" then ["1.9", "1.10"] else [],
    isZipfile := fun _ => true, canOpenZip := fun _ => true,
    normpath := id, dirname := fun _ => "", basename := fun _ => "",
    isAbs := fun _ => true, cfgValue := fun _ _ d => d }

/-- C1 witness conventional install. -/
def winst : MCInstall := ⟨"Main", "/mc"⟩

/-- C1 witness group. -/
def wgroup : MCInstallGroup := ⟨[winst], []⟩

/-- C1 witness MultiMC install. -/
def wmmc : MultiMCInstall :=
  ⟨"/mmc/multimc.cfg", "/mmc", "/mmc/instances", "/mmc/versions", "mmc"⟩

/-- C1 witness MultiMC instance, fixed at version `1.10`. -/
def wminst : MMCInstance :=
  ⟨"1.10", "i", "/mmc/instances/i/minecraft/saves", "/mmc/instances/i/minecraft/mods", wmmc⟩

/-- C1 witness: target `1.9` without a pack yields exactly one layer; target
`1.10` with pack `X.zip` yields pack, jar, then the `1.9` reference jar; the
MultiMC instance gets its mods folder appended last. -/
theorem c1_witness :
    refLayers "1.9" "/mc/versions/1.9/1.9.jar" = [] ∧
    refLayers "1.10" "/mc/versions/1.9/1.9.jar" = [Layer.zip "/mc/versions/1.9/1.9.jar"] ∧
    (MCInstall.getResourceLoader wfs false wgroup winst "1.9" none
      = .ok ⟨some "/mc/versions/1.9/1.9.jar",
          [Layer.zip (winst.getVersionJarPath "1.9")]
            ++ refLayers "1.9" "/mc/versions/1.9/1.9.jar"⟩) ∧
    (MCInstall.getResourceLoader wfs false wgroup winst "1.10" (some "X.zip")
      = .ok ⟨some "/mc/versions/1.9/1.9.jar",
          [Layer.zip (winst.getResourcePackPath "X.zip"),
           Layer.zip (winst.getVersionJarPath "1.10")]
            ++ refLayers "1.10" "/mc/versions/1.9/1.9.jar"⟩) ∧
    (MMCInstance.getResourceLoader wfs false wgroup wminst (some "X.zip")
      = .ok ⟨some "/mc/versions/1.9/1.9.jar",
          [Layer.zip "X.zip", Layer.zip wminst.getVersionJarPath]
            ++ refLayers wminst.version "/mc/versions/1.9/1.9.jar"
            ++ [Layer.mods wminst.modsDir]⟩) :=
  ⟨by decide, by decide,
   (c1_layer_order wfs false wgroup winst wminst "1.9" "X.zip" "/mc/versions/1.9/1.9.jar"
      (by decide) (by decide) (by decide) (by decide) (by decide) (by decide)
      (by decide) (by decide)).1,
   (c1_layer_order wfs false wgroup winst wminst "1.10" "X.zip" "/mc/versions/1.9/1.9.jar"
      (by decide) (by decide) (by decide) (by decide) (by decide) (by decide)
      (by decide) (by decide)).2.1,
   (c1_layer_order wfs false wgroup winst wminst "1.10" "X.zip" "/mc/versions/1.9/1.9.jar"
      (by decide) (by decide) (by decide) (by decide) (by decide) (by decide)
      (by decide) (by decide)).2.2.2⟩

/-- C3: when the target version's jar is missing and the usable-version list
is non-empty, its first entry's jar takes the target jar's layer position,
with the rest of the order preserved (pack first when given, reference layer
after). -/
theorem c3_missing_jar_substitution (fs : FS) (snap : Bool) (g : MCInstallGroup)
    (self : MCInstall) (version p r w : String) (ws : List String)
    (hr : g.findVersion1_9 fs snap = some r)
    (hmiss : fs.pathExists (self.getVersionJarPath version) = false)
    (hvers : self.versions fs snap = w :: ws)
    (hwOpen : fs.canOpenZip (self.getVersionJarPath w) = true)
    (hrefOpen : fs.canOpenZip r = true)
    (hpack : fs.canOpenZip (self.getResourcePackPath p) = true)
    (hp : p ≠ "") :
    (self.getResourceLoader fs snap g version none
      = .ok ⟨some r, [Layer.zip (self.getVersionJarPath w)] ++ refLayers version r⟩) ∧
    (self.getResourceLoader fs snap g version (some p)
      = .ok ⟨some r, [Layer.zip (self.getResourcePackPath p),
          Layer.zip (self.getVersionJarPath w)] ++ refLayers version r⟩) := by
  constructor
  · rw [MCInstall.getResourceLoader]
    simp only [hr, addZipFile, hmiss, hvers, hwOpen, if_true, reduceIte, Bool.false_eq_true,
      if_false]
    by_cases hv : versionPair version = (1, 9) <;>
      simp [hv, refLayers, addZipFile, hrefOpen]
  · rw [MCInstall.getResourceLoader]
    simp only [hr, addZipFile, hmiss, hvers, hwOpen, hpack, hp, if_true, reduceIte,
      Bool.false_eq_true, if_false, if_neg]
    by_cases hv : versionPair version = (1, 9) <;>
      simp [hv, hp, refLayers, addZipFile, hrefOpen]

/-- C3 witness filesystem: the jar of version `1.8` is missing; the versions
folder lists `1.8.1` (first) and `1.9`. -/
def c3fs : FS :=
  { pathExists := fun q => !(q = "/mc/versions/1.8/1.8.jar"), isDir := fun _ => true,
    listdir := fun q => if q = "/mc/versions" then ["1.8.1", "1.9"] else [],
    isZipfile := fun _ => true, canOpenZip := fun _ => true,
    normpath := id, dirname := fun _ => "", basename := fun _ => "",
    isAbs := fun _ => true, cfgValue := fun _ _ d => d }

/-- C3 witness group. -/
def c3group : MCInstallGroup := ⟨[⟨"Main", "/mc"⟩], []⟩

/-- C3 witness: requesting version `1.8` (jar missing) substitutes the jar of
`1.8.1`, the first usable version, keeping the reference layer after it. -/
theorem c3_witness :
    MCInstall.versions c3fs false ⟨"Main", "/mc"⟩ = ["1.8.1", "1.9"] ∧
    (MCInstall.getResourceLoader c3fs false c3group ⟨"Main", "/mc"⟩ "1.8" none
      = .ok ⟨some "/mc/versions/1.9/1.9.jar",
          [Layer.zip (MCInstall.getVersionJarPath ⟨"Main", "/mc"⟩ "1.8.1")]
            ++ refLayers "1.8" "/mc/versions/1.9/1.9.jar"⟩) ∧
    (MCInstall.getResourceLoader c3fs false c3group ⟨"Main", "/mc"⟩ "1.8" (some "X.zip")
      = .ok ⟨some "/mc/versions/1.9/1.9.jar",
          [Layer.zip (MCInstall.getResourcePackPath ⟨"Main", "/mc"⟩ "X.zip"),
           Layer.zip (MCInstall.getVersionJarPath ⟨"Main", "/mc"⟩ "1.8.1")]
            ++ refLayers "1.8" "/mc/versions/1.9/1.9.jar"⟩) :=
  ⟨by decide,
   (c3_missing_jar_substitution c3fs false c3group ⟨"Main", "/mc"⟩ "1.8" "X.zip"
      "/mc/versions/1.9/1.9.jar" "1.8.1" ["1.9"] (by decide) (by decide) (by decide)
      (by decide) (by decide) (by decide) (by decide)).1,
   (c3_missing_jar_substitution c3fs false c3group ⟨"Main", "/mc"⟩ "1.8" "X.zip"
      "/mc/versions/1.9/1.9.jar" "1.8.1" ["1.9"] (by decide) (by decide) (by decide)
      (by decide) (by decide) (by decide) (by decide)).2⟩

/-- C4 (amended): a resource-pack open failure is non-fatal for a
conventional installation — the error is caught, the pack layer skipped, and
the loader returned with the remaining layers — but for a MultiMC instance
the `addZipFile` call on the pack is unguarded, so the failure propagates
and no loader is returned. -/
theorem c4_pack_open_failure (fs : FS) (snap : Bool) (g : MCInstallGroup)
    (self : MCInstall) (inst : MMCInstance) (version p r : String)
    (hr : g.findVersion1_9 fs snap = some r)
    (hpackfail : fs.canOpenZip (self.getResourcePackPath p) = false)
    (hp : p ≠ "")
    (hjar : fs.pathExists (self.getVersionJarPath version) = true)
    (hjarOpen : fs.canOpenZip (self.getVersionJarPath version) = true)
    (hrefOpen : fs.canOpenZip r = true)
    (hmpackfail : fs.canOpenZip p = false) :
    (self.getResourceLoader fs snap g version (some p)
      = .ok ⟨some r, [Layer.zip (self.getVersionJarPath version)] ++ refLayers version r⟩) ∧
    (inst.getResourceLoader fs snap g (some p) = .error p) := by
  constructor
  · rw [MCInstall.getResourceLoader]
    simp only [hr, addZipFile, hpackfail, hjar, hjarOpen, hp, if_true, reduceIte,
      Bool.false_eq_true, if_false, if_neg]
    by_cases hv : versionPair version = (1, 9) <;>
      simp [hv, hp, refLayers, addZipFile, hrefOpen]
  · rw [MMCInstance.getResourceLoader]
    simp [hr, addZipFile, hmpackfail, hp]

/-- C4 counterexample filesystem: everything present, but the archive
`badpack.zip` cannot be opened. -/
def c4fs : FS :=
  { pathExists := fun _ => true, isDir := fun _ => true,
    listdir := fun q => if q = "/mc/versions" then ["1.9"] else [],
    isZipfile := fun _ => true,
    canOpenZip := fun q => !(q = "badpack.zip") && !(q = "/mc/resourcepacks/badpack.zip"),
    normpath := id, dirname := fun _ => "", basename := fun _ => "",
    isAbs := fun _ => true, cfgValue := fun _ _ d => d }

/-- C4 counterexample group. -/
def c4group : MCInstallGroup := ⟨[⟨"Main", "/mc"⟩], []⟩

/-- C4 counterexample MultiMC instance. -/
def c4minst : MMCInstance :=
  ⟨"1.10", "i", "/mmc/instances/i/minecraft/saves", "/mmc/instances/i/minecraft/mods",
   ⟨"/mmc/multimc.cfg", "/mmc", "/mmc/instances", "/mmc/versions", "mmc"⟩⟩

/-- C4 counterexample: on the MultiMC instance, the failure to open
`badpack.zip` is fatal — the call returns an error instead of a loader with
the remaining layers. -/
theorem c4_counterexample :
    MMCInstance.getResourceLoader c4fs false c4group c4minst (some "badpack.zip")
      = .error "badpack.zip" := by decide

/-- C4 witness: the same failing pack on a conventional installation is
skipped and a loader with the remaining layers is returned. -/
theorem c4_witness :
    (MCInstall.getResourceLoader c4fs false c4group ⟨"Main", "/mc"⟩ "1.10" (some "badpack.zip")
      = .ok ⟨some "/mc/versions/1.9/1.9.jar",
          [Layer.zip (MCInstall.getVersionJarPath ⟨"Main", "/mc"⟩ "1.10")]
            ++ refLayers "1.10" "/mc/versions/1.9/1.9.jar"⟩) ∧
    (MMCInstance.getResourceLoader c4fs false c4group c4minst (some "badpack.zip")
      = .error "badpack.zip") :=
  ⟨(c4_pack_open_failure c4fs false c4group ⟨"Main", "/mc"⟩ c4minst "1.10" "badpack.zip"
      "/mc/versions/1.9/1.9.jar" (by decide) (by decide) (by decide) (by decide)
      (by decide) (by decide) (by decide)).1,
   (c4_pack_open_failure c4fs false c4group ⟨"Main", "/mc"⟩ c4minst "1.10" "badpack.zip"
      "/mc/versions/1.9/1.9.jar" (by decide) (by decide) (by decide) (by decide)
      (by decide) (by decide) (by decide)).2⟩

/-- C7 (amended): when some instance's normalized saves folder is a string
prefix of the normalized world path, `getResourceLoaderForFilename` returns
the loader of the FIRST such instance (launcher-config order, then
instance-listing order), and the result is independent of the persisted
current-install / current-version / current-resource-pack selection. -/
theorem c7_world_under_instance_saves (fs : FS) (snap : Bool) (g : MCInstallGroup)
    (s s' : Settings) (w : String) (inst : MMCInstance)
    (h : (g.instances fs).find?
        (fun i => strStartsWith (fs.normpath w) (fs.normpath i.saveFileDir)) = some inst) :
    getResourceLoaderForFilename fs snap g s w = inst.getResourceLoader fs snap g none ∧
    getResourceLoaderForFilename fs snap g s w
      = getResourceLoaderForFilename fs snap g s' w := by
  constructor
  · rw [getResourceLoaderForFilename]
    simp only [h]
  · rw [getResourceLoaderForFilename, getResourceLoaderForFilename]
    simp only [h]

/-- C7 counterexample filesystem: launcher config 1 manages instance
`/d1/a`; launcher config 2's instance directory sits INSIDE instance `a`'s
saves folder, so instance `/d1/a/minecraft/saves/b`'s own saves folder is
also under `a`'s. -/
def c7fs : FS :=
  { pathExists := fun _ => true, isDir := fun _ => true,
    listdir := fun q =>
      if q = "/d1" then ["a"]
      else if q = "/d1/a/minecraft/saves" then ["b"]
      else if q = "/c1/versions" then ["1.9"]
      else if q = "/c2/versions" then ["1.10"]
      else [],
    isZipfile := fun _ => true, canOpenZip := fun _ => true,
    normpath := id, dirname := fun _ => "", basename := fun _ => "",
    isAbs := fun _ => true,
    cfgValue := fun f k d =>
      if f = "/d1/a/instance.cfg" && k = "IntendedVersion" then "1.9"
      else if f = "/d1/a/minecraft/saves/b/instance.cfg" && k = "IntendedVersion" then "1.10"
      else d }

/-- C7 counterexample launcher config 1. -/
def cm1 : MultiMCInstall := ⟨"/c1/multimc.cfg", "/c1", "/d1", "/c1/versions", "c1"⟩

/-- C7 counterexample launcher config 2. -/
def cm2 : MultiMCInstall :=
  ⟨"/c2/multimc.cfg", "/c2", "/d1/a/minecraft/saves", "/c2/versions", "c2"⟩

/-- C7 counterexample group. -/
def cg7 : MCInstallGroup := ⟨[], [cm1, cm2]⟩

/-- C7 counterexample settings. -/
def cs7 : Settings := ⟨[], [], "", "", ""⟩

/-- Instance `a` of config 1, as enumerated. -/
def cA : MMCInstance :=
  ⟨"1.9", "(unnamed)", "/d1/a/minecraft/saves", "/d1/a/minecraft/mods", cm1⟩

/-- Instance `b` of config 2, as enumerated; its saves folder nests inside
instance `a`'s saves folder. -/
def cB : MMCInstance :=
  ⟨"1.10", "(unnamed)", "/d1/a/minecraft/saves/b/minecraft/saves",
   "/d1/a/minecraft/saves/b/minecraft/mods", cm2⟩

/-- C7 counterexample: the world lies under instance `b`'s save directory,
yet the function returns instance `a`'s loader (the first prefix match), not
`b`'s — so the claim fails for instance `b`. -/
theorem c7_counterexample :
    cB ∈ cg7.instances c7fs ∧
    strStartsWith (c7fs.normpath "/d1/a/minecraft/saves/b/minecraft/saves/world")
      (c7fs.normpath cB.saveFileDir) = true ∧
    getResourceLoaderForFilename c7fs false cg7 cs7
        "/d1/a/minecraft/saves/b/minecraft/saves/world"
      ≠ MMCInstance.getResourceLoader c7fs false cg7 cB none := by decide

/-- C7 witness: the amended theorem applied at the concrete world path; the
first matching instance is `a`, and the answer ignores the global
selection. -/
theorem c7_witness :
    (getResourceLoaderForFilename c7fs false cg7 cs7
        "/d1/a/minecraft/saves/b/minecraft/saves/world"
      = MMCInstance.getResourceLoader c7fs false cg7 cA none) ∧
    (getResourceLoaderForFilename c7fs false cg7 cs7
        "/d1/a/minecraft/saves/b/minecraft/saves/world"
      = getResourceLoaderForFilename c7fs false cg7 ⟨[], [], "/other", "9.9", "pack"⟩
          "/d1/a/minecraft/saves/b/minecraft/saves/world") :=
  ⟨(c7_world_under_instance_saves c7fs false cg7 cs7 ⟨[], [], "/other", "9.9", "pack"⟩
      "/d1/a/minecraft/saves/b/minecraft/saves/world" cA (by decide)).1,
   (c7_world_under_instance_saves c7fs false cg7 cs7 ⟨[], [], "/other", "9.9", "pack"⟩
      "/d1/a/minecraft/saves/b/minecraft/saves/world" cA (by decide)).2⟩

/-- The current-install fixup never touches the persisted installations
list. -/
theorem fixupCurrent_installations (g : MCInstallGroup) (s : Settings) :
    (fixupCurrent g s).installations = s.installations := by
  rw [fixupCurrent]
  cases g.getInstall s.currentInstallPath with
  | some i => rfl
  | none => cases g.installations with
    | nil => rfl
    | cons i l => rfl

/-- When the default install is unusable, group construction leaves the
persisted installations unchanged. -/
theorem mkGroup_inst_of_error (fs : FS) (snap : Bool) (mdir : String) (s : Settings)
    (e : String)
    (hcu : MCInstall.checkUsable fs snap ⟨"(Default)", mdir⟩ = .error e) :
    ((mkGroup fs snap mdir s).2).installations = s.installations := by
  rw [mkGroup]
  rw [getDefaultInstallStep]
  simp only [hcu]
  exact fixupCurrent_installations _ _

/-- When the default install is usable and its settings value is already in
the persisted list, group construction leaves the persisted installations
unchanged. -/
theorem mkGroup_inst_of_mem (fs : FS) (snap : Bool) (mdir : String) (s : Settings)
    (u : Unit)
    (hcu : MCInstall.checkUsable fs snap ⟨"(Default)", mdir⟩ = .ok u)
    (hm : (⟨"(Default)", mdir⟩ : JsonInstall) ∈ s.installations) :
    ((mkGroup fs snap mdir s).2).installations = s.installations := by
  rw [mkGroup]
  rw [getDefaultInstallStep]
  simp only [hcu, MCInstall.getJsonSettingValue, fixupCurrent_installations]
  rw [if_pos hm]
  simp only []
  split <;> exact fixupCurrent_installations _ _

/-- When the default install is usable and its settings value is not yet
persisted, group construction persists the loaded list with the default
value appended. -/
theorem mkGroup_inst_of_not_mem (fs : FS) (snap : Bool) (mdir : String) (s : Settings)
    (u : Unit)
    (hcu : MCInstall.checkUsable fs snap ⟨"(Default)", mdir⟩ = .ok u)
    (hm : (⟨"(Default)", mdir⟩ : JsonInstall) ∉ s.installations) :
    ((mkGroup fs snap mdir s).2).installations
      = (loadInstalls fs snap s.installations).map MCInstall.getJsonSettingValue
          ++ [⟨"(Default)", mdir⟩] := by
  rw [mkGroup]
  rw [getDefaultInstallStep]
  simp only [hcu, MCInstall.getJsonSettingValue, fixupCurrent_installations]
  rw [if_neg hm]
  simp only [saveInstallsS]
  split <;> simp [MCInstall.getJsonSettingValue]

/-- C9: auto-discovery of the platform-default installation is idempotent —
constructing the group a second time over the persisted state produced by a
first construction leaves the persisted installations list exactly unchanged
— and the default `{name, path}` entry is appended only when not already
present in the persisted list. -/
theorem c9_default_install_idempotent (fs : FS) (snap : Bool) (mdir : String)
    (s : Settings) :
    (((mkGroup fs snap mdir (mkGroup fs snap mdir s).2).2).installations
        = ((mkGroup fs snap mdir s).2).installations) ∧
    ((⟨"(Default)", mdir⟩ : JsonInstall) ∈ s.installations →
        ((mkGroup fs snap mdir s).2).installations = s.installations) := by
  constructor
  · cases hcu : MCInstall.checkUsable fs snap ⟨"(Default)", mdir⟩ with
    | error e =>
      rw [mkGroup_inst_of_error fs snap mdir _ e hcu]
    | ok u =>
      by_cases hm : (⟨"(Default)", mdir⟩ : JsonInstall) ∈ s.installations
      · have h1 := mkGroup_inst_of_mem fs snap mdir s u hcu hm
        exact mkGroup_inst_of_mem fs snap mdir _ u hcu (by rw [h1]; exact hm)
      · have h1 := mkGroup_inst_of_not_mem fs snap mdir s u hcu hm
        refine mkGroup_inst_of_mem fs snap mdir _ u hcu ?_
        rw [h1]
        exact List.mem_append_right _ (by simp)
  · intro hm
    cases hcu : MCInstall.checkUsable fs snap ⟨"(Default)", mdir⟩ with
    | error e => exact mkGroup_inst_of_error fs snap mdir s e hcu
    | ok u => exact mkGroup_inst_of_mem fs snap mdir s u hcu hm

/-- C9 witness filesystem: a usable default install at `/home/.minecraft`. -/
def c9fs : FS :=
  { pathExists := fun _ => true, isDir := fun _ => true,
    listdir := fun q => if q = "/home/.minecraft/versions" then ["1.9"] else [],
    isZipfile := fun _ => true, canOpenZip := fun _ => true,
    normpath := id, dirname := fun _ => "", basename := fun _ => "",
    isAbs := fun _ => true, cfgValue := fun _ _ d => d }

/-- C9 witness persisted settings, already holding the default entry. -/
def c9settings : Settings := ⟨[⟨"(Default)", "/home/.minecraft"⟩], [], "", "", ""⟩

/-- C9 witness: with the default entry already persisted, construction keeps
the persisted list unchanged, and a second construction is a no-op too. -/
theorem c9_witness :
    ((mkGroup c9fs false "/home/.minecraft" c9settings).2).installations
        = c9settings.installations ∧
    ((mkGroup c9fs false "/home/.minecraft"
        (mkGroup c9fs false "/home/.minecraft" c9settings).2).2).installations
      = ((mkGroup c9fs false "/home/.minecraft" c9settings).2).installations :=
  ⟨(c9_default_install_idempotent c9fs false "/home/.minecraft" c9settings).2 (by decide),
   (c9_default_install_idempotent c9fs false "/home/.minecraft" c9settings).1⟩

/-- After `dropWhile`, the remainder is empty or starts with an element
refuting the predicate. -/
theorem dropWhile_head_false (p : Char → Bool) (l : List Char) :
    l.dropWhile p = [] ∨ ∃ c t, l.dropWhile p = c :: t ∧ p c = false := by
  induction l with
  | nil => left; rfl
  | cons a as ih =>
    rw [List.dropWhile_cons]
    split
    · exact ih
    · right
      refine ⟨a, as, rfl, ?_⟩
      simp_all

/-- Soundness of one match attempt: a successful `matchHere` decomposes its
input into a nonempty digit run, a dot, a nonempty digit run, the returned
newline-free rest, and a tail that is empty or starts with a newline. -/
theorem matchHere_eq_some {l d1 d2 r : List Char}
    (h : matchHere l = some (d1, d2, r)) :
    d1 ≠ [] ∧ (∀ c ∈ d1, isAsciiDigit c = true) ∧ d2 ≠ [] ∧
    (∀ c ∈ d2, isAsciiDigit c = true) ∧ (∀ c ∈ r, c ≠ '\n') ∧
    ∃ post, (post = [] ∨ ∃ t, post = '\n' :: t) ∧
      l = d1 ++ '.' :: (d2 ++ (r ++ post)) := by
  unfold matchHere at h
  split at h
  · exact absurd h (by simp)
  · rename_i hne
    split at h
    · rename_i c r2 heq
      split at h
      · rename_i hdot
        subst hdot
        split at h
        · exact absurd h (by simp)
        · rename_i hd2ne
          injection h with h'
          rw [Prod.mk.injEq, Prod.mk.injEq] at h'
          obtain ⟨h1, h2, h3⟩ := h'
          subst h1; subst h2; subst h3
          refine ⟨by simpa using hne, fun c hc => List.mem_takeWhile_imp hc,
            by simpa using hd2ne, fun c hc => List.mem_takeWhile_imp hc, ?_, ?_⟩
          · intro c hc
            have := List.mem_takeWhile_imp hc
            simpa using this
          · refine ⟨(r2.dropWhile isAsciiDigit).dropWhile (fun x => !(x = '\n')), ?_, ?_⟩
            · rcases dropWhile_head_false (fun x => !(x = '\n')) (r2.dropWhile isAsciiDigit)
                with h0 | ⟨c, t, hct, hcf⟩
              · left; exact h0
              · right
                refine ⟨t, ?_⟩
                rw [hct]
                have : c = '\n' := by simpa using hcf
                rw [this]
            · conv_lhs => rw [← List.takeWhile_append_dropWhile (p := isAsciiDigit) (l := l)]
              rw [heq]
              congr 1
              congr 1
              conv_lhs => rw [← List.takeWhile_append_dropWhile (p := isAsciiDigit) (l := r2)]
              congr 1
              rw [List.takeWhile_append_dropWhile]
      · exact absurd h (by simp)
    · exact absurd h (by simp)

/-- A successful search is a leftmost successful match: every earlier
position fails. -/
theorem searchVersion_eq_some {l : List Char} {res : List Char × List Char × List Char}
    (h : searchVersion l = some res) :
    ∃ n, (∀ i < n, matchHere (l.drop i) = none) ∧ matchHere (l.drop n) = some res := by
  induction l with
  | nil => simp [searchVersion] at h
  | cons c cs ih =>
    rw [searchVersion] at h
    cases hm : matchHere (c :: cs) with
    | some r =>
      rw [hm] at h
      refine ⟨0, fun i hi => absurd hi (by omega), ?_⟩
      simpa using h ▸ hm
    | none =>
      rw [hm] at h
      simp only [] at h
      obtain ⟨n, hall, hm'⟩ := ih h
      refine ⟨n + 1, ?_, ?_⟩
      · intro i hi
        cases i with
        | zero => simpa using hm
        | succ j => rw [List.drop_succ_cons]; exact hall j (by omega)
      · rw [List.drop_succ_cons]; exact hm'

/-- When no position matches, the search fails. -/
theorem searchVersion_none_of_all {l : List Char}
    (h : ∀ i, matchHere (l.drop i) = none) : searchVersion l = none := by
  induction l with
  | nil => rfl
  | cons c cs ih =>
    rw [searchVersion]
    have h0 := h 0
    simp only [List.drop_zero] at h0
    rw [h0]
    exact ih (fun i => by simpa [List.drop_succ_cons] using h (i + 1))

/-- C6 (amended): `splitVersion` is total by construction; unmatched strings
yield `(0, 0, "")`; on the leftmost match of `<digits>.<digits>` it returns
the two numbers and, as rest, everything after the minor number UP TO BUT NOT
INCLUDING the first newline — the regex `.` does not match a newline — while
the dropped tail is empty or starts with that newline. -/
theorem c6_split_version_total (s : String) :
    splitVersion "1.8.1-pre3" = (1, 8, ".1-pre3") ∧
    splitVersion "1.9" = (1, 9, "") ∧
    splitVersion "garbage" = (0, 0, "") ∧
    ((∀ i, matchHere (s.data.drop i) = none) → splitVersion s = (0, 0, "")) ∧
    (∀ d1 d2 r, searchVersion s.data = some (d1, d2, r) →
      splitVersion s = (digitsVal d1, digitsVal d2, ⟨r⟩) ∧
      ∃ n post, (∀ i < n, matchHere (s.data.drop i) = none) ∧
        d1 ≠ [] ∧ (∀ c ∈ d1, isAsciiDigit c = true) ∧ d2 ≠ [] ∧
        (∀ c ∈ d2, isAsciiDigit c = true) ∧ (∀ c ∈ r, c ≠ '\n') ∧
        (post = [] ∨ ∃ t, post = '\n' :: t) ∧
        s.data.drop n = d1 ++ '.' :: (d2 ++ (r ++ post))) := by
  refine ⟨by decide, by decide, by decide, ?_, ?_⟩
  · intro h
    rw [splitVersion, searchVersion_none_of_all h]
  · intro d1 d2 r h
    constructor
    · rw [splitVersion, h]
    · obtain ⟨n, hall, hm⟩ := searchVersion_eq_some h
      obtain ⟨h1, h2, h3, h4, h5, post, hpost, hdecomp⟩ := matchHere_eq_some hm
      exact ⟨n, post, hall, h1, h2, h3, h4, h5, hpost, hdecomp⟩

/-- C6 counterexample: for `"1.8.1-pre3\nX"` the claim's rest would be
`".1-pre3\nX"` (everything after the minor number), but the regex dot stops
at the newline, so the code returns rest `".1-pre3"`. -/
theorem c6_counterexample :
    splitVersion "1.8.1-pre3\nX" ≠ (1, 8, ".1-pre3\nX") ∧
    splitVersion "1.8.1-pre3\nX" = (1, 8, ".1-pre3") := by
  refine ⟨by decide, by decide⟩

/-- C6 witness: the no-match branch applied at `"abc"` and the match branch
applied at `"x1.9y"`. -/
theorem c6_witness :
    splitVersion "abc" = (0, 0, "") ∧
    splitVersion "x1.9y" = (digitsVal ['1'], digitsVal ['9'], ⟨['y']⟩) :=
  ⟨(c6_split_version_total "abc").2.2.2.1 (fun i => by
      match i with
      | 0 => decide
      | 1 => decide
      | 2 => decide
      | n + 3 =>
        have hlen : ("abc".data).length = 3 := rfl
        rw [List.drop_eq_nil_of_le (by omega)]
        rfl),
   ((c6_split_version_total "x1.9y").2.2.2.2 ['1'] ['9'] ['y'] (by decide)).1⟩
